import Mathlib

/-!
Verification of the conversation/favorability backend
(`backend/conversation_manager.py` together with the record types of
`backend/database.py`).

The database session is embedded as an explicit state value `DB` holding the
four record tables as lists (insertion order = primary-key order).  Real
timestamps are embedded as natural numbers of seconds; each `DB` carries a
`clock` that stamps newly inserted messages, and the wall-clock instant used
by the anniversary check is an explicit `now` argument.  The remote
completion gateway is embedded as the outcome (`Except error reply`) of the
one call a turn performs.  Record fields that no verified property reads
(auto-increment primary keys, `created_at` / `last_updated` audit columns,
the JSON settings blob of a character) are omitted from the embedding.
-/

namespace DatingBot

/-- Row of the `users` table (`database.py`, class `User`). -/
structure User where
  user_id : Nat
  username : String
deriving DecidableEq, Repr

/-- Row of the `characters` table (`database.py`, class `Character`). -/
structure Character where
  character_id : Nat
  user_id : Nat
  name : String
  gender : String
  identity : Option String
  nickname : Option String
  detail_setting : Option String
deriving DecidableEq, Repr

/-- Row of the `messages` table (`database.py`, class `Message`). -/
structure Message where
  user_id : Nat
  character_id : Nat
  speaker_name : String
  message_content : String
  favorability_level : Nat
  timestamp : Nat
deriving DecidableEq, Repr

/-- Row of the `favorability_tracking` table (`database.py`,
class `FavorabilityTracking`). -/
structure FavorabilityTracking where
  user_id : Nat
  character_id : Nat
  current_level : Nat
  message_count : Nat
deriving DecidableEq, Repr

/-- The database session state: the four tables, the auto-increment counter
for character ids, and the clock stamping message timestamps. -/
structure DB where
  users : List User
  characters : List Character
  messages : List Message
  favorabilities : List FavorabilityTracking
  next_character_id : Nat
  clock : Nat
deriving DecidableEq, Repr

/-- A freshly initialised database (`init_db` creates empty tables). -/
def DB.empty : DB := ⟨[], [], [], [], 1, 0⟩

/-- `ConversationManager.LEVEL_1_THRESHOLD` (line 18). -/
def LEVEL_1_THRESHOLD : Nat := 0

/-- `ConversationManager.LEVEL_2_THRESHOLD` (line 19). -/
def LEVEL_2_THRESHOLD : Nat := 20

/-- `ConversationManager.LEVEL_3_THRESHOLD` (line 20). -/
def LEVEL_3_THRESHOLD : Nat := 50

/-- `ConversationManager.MAX_HISTORY_MESSAGES` (line 22). -/
def MAX_HISTORY_MESSAGES : Nat := 100

/-- The level computation inlined in `update_favorability`
(lines 194-200): count ≥ 50 gives 3, count ≥ 20 gives 2, else 1. -/
def levelFor (message_count : Nat) : Nat :=
  if message_count ≥ LEVEL_3_THRESHOLD then 3
  else if message_count ≥ LEVEL_2_THRESHOLD then 2
  else 1

/-- `get_favorability` (lines 170-174): first row of the tracking table
matching the character id. -/
def get_favorability (db : DB) (cid : Nat) : Option FavorabilityTracking :=
  db.favorabilities.find? (fun f => f.character_id == cid)

/-- In-place mutation of the ORM object returned by a `first()` query:
apply `g` to the first list element satisfying `p`. -/
def updateFirst {α : Type} (p : α → Bool) (g : α → α) : List α → List α
  | [] => []
  | x :: xs => if p x then g x :: xs else x :: updateFirst p g xs

/-- The row mutation of lines 191-200: count incremented by one, level
recomputed from the incremented count (`fav` is the row `first()`
returned). -/
def bumpRow (fav f : FavorabilityTracking) : FavorabilityTracking :=
  { f with message_count := fav.message_count + 1,
           current_level := levelFor (fav.message_count + 1) }

/-- The tracker mutation committed by `update_favorability` (lines 191-203):
the first tracker row of the character gets its count incremented and its
level recomputed from the incremented count. -/
def trackerBump (cid : Nat) (fav : FavorabilityTracking) :
    List FavorabilityTracking → List FavorabilityTracking :=
  updateFirst (fun f => f.character_id == cid) (bumpRow fav)

/-- `update_favorability` (lines 176-205).  Returns the
`(current_level, level_increased)` pair of the source together with the
post-commit database state. -/
def update_favorability (db : DB) (cid : Nat) : Nat × Bool × DB :=
  match get_favorability db cid with
  | none => (1, false, db)
  | some favorability =>
    let newCount := favorability.message_count + 1
    let old_level := favorability.current_level
    let new_level := levelFor newCount
    let favs :=
      updateFirst (fun f => f.character_id == cid)
        (fun f => { f with message_count := newCount, current_level := new_level })
        db.favorabilities
    let db' := { db with favorabilities := favs }
    (new_level, decide (old_level < new_level), db')

/-- `save_message` (lines 108-141): insert a message row stamped with the
current clock. -/
def save_message (db : DB) (uid cid : Nat) (speaker content : String)
    (lvl : Nat) : Message × DB :=
  let m : Message := ⟨uid, cid, speaker, content, lvl, db.clock⟩
  (m, { db with messages := db.messages ++ [m], clock := db.clock + 1 })

instance : DecidableRel (fun a b : Message => a.timestamp ≤ b.timestamp) :=
  fun a b => Nat.decLe a.timestamp b.timestamp

/-- The query `Message.filter(character_id == cid).order_by(timestamp.asc())`
(lines 158-160 and 344-346), embedded as a stable sort of the filtered
table. -/
def historyQuery (db : DB) (cid : Nat) : List Message :=
  (db.messages.filter (fun m => m.character_id == cid)).insertionSort
    (fun a b => a.timestamp ≤ b.timestamp)

/-- `get_conversation_history` (lines 143-168).  A limit of `None` — or `0`,
which is falsy in `if limit:` — returns the whole chronological list;
otherwise, when the total exceeds the limit, the query is offset by
`total - limit`. -/
def get_conversation_history (db : DB) (cid : Nat) (limit : Option Nat) :
    List Message :=
  let q := historyQuery db cid
  match limit with
  | none => q
  | some l =>
    if l = 0 then q
    else if q.length > l then q.drop (q.length - l) else q

/-- The fields of the `character_data` dict consumed by `save_character`. -/
structure CharacterData where
  name : String
  gender : String
  identity : Option String
  nickname : Option String
  detail_setting : Option String
deriving DecidableEq, Repr

/-- `save_character` (lines 53-94): insert the character row, then insert its
favorability tracker initialised to level 1 and count 0. -/
def save_character (db : DB) (uid : Nat) (cdata : CharacterData) :
    Character × DB :=
  let character : Character :=
    ⟨db.next_character_id, uid, cdata.name, cdata.gender,
     cdata.identity, cdata.nickname, cdata.detail_setting⟩
  let favorability : FavorabilityTracking := ⟨uid, character.character_id, 1, 0⟩
  (character,
   { db with
      characters := db.characters ++ [character],
      next_character_id := db.next_character_id + 1,
      favorabilities := db.favorabilities ++ [favorability] })

/-- `delete_character` (lines 388-396) with the ORM cascade of
`database.py` (messages and tracker rows of the character are removed). -/
def delete_character (db : DB) (cid : Nat) : Bool × DB :=
  match db.characters.find? (fun c => c.character_id == cid) with
  | none => (false, db)
  | some _ =>
    (true,
     { db with
        characters := db.characters.filter (fun c => !(c.character_id == cid)),
        messages := db.messages.filter (fun m => !(m.character_id == cid)),
        favorabilities :=
          db.favorabilities.filter (fun f => !(f.character_id == cid)) })

/-- Line 253: `favorability.current_level if favorability else 1`. -/
def currentLevel (db : DB) (cid : Nat) : Nat :=
  match get_favorability db cid with
  | some f => f.current_level
  | none => 1

/-- The milestone list of line 334. -/
def milestones : List Nat := [50, 100, 200, 500, 1000]

/-- The anniversary list of line 358. -/
def anniversary_milestones : List Nat := [7, 30, 100, 365]

/-- The `for ... if ... break` scan of lines 335-339 and 359-363: first list
entry exactly equal to the count, with `(False, 0)` when none matches. -/
def scanExact : List Nat → Nat → Bool × Nat
  | [], _ => (false, 0)
  | m :: ms, c => if c == m then (true, m) else scanExact ms c

/-- Line 355: `(now - first_date).days`, whole days of UTC time
subtraction (both instants in seconds). -/
def daysSince (first now : Nat) : Nat := (now - first) / 86400

/-- Gateway failures raise; `str(e)` is the error description. -/
abbrev GatewayOutcome := Except String String

/-- Errors raised by `send_message` before any write (lines 244-249). -/
inductive SendError where
  | characterNotFound (cid : Nat)
  | userNotFound (uid : Nat)
deriving DecidableEq, Repr

/-- The success dictionary returned by `send_message` (lines 365-376). -/
structure TurnOk where
  reply : String
  favorability_level : Nat
  level_increased : Bool
  message_count : Nat
  milestone_reached : Bool
  milestone_number : Nat
  anniversary_reached : Bool
  anniversary_days : Nat
deriving DecidableEq, Repr

/-- The two result dictionary shapes of `send_message`: the success payload,
or the `success: False` dictionary carrying the error description. -/
inductive TurnResult where
  | ok (payload : TurnOk)
  | fail (error : String)
deriving DecidableEq, Repr

/-- Lines 313-376 of `send_message`: everything after the gateway call
succeeded — persist the reply at the pre-update level, advance favorability,
re-read the authoritative count, scan milestones, and scan anniversaries
against the first-ever message of the character. -/
def completeTurn (db1 : DB) (uid cid : Nat) (character_reply : String)
    (current_level : Nat) (character : Character) (now : Nat) :
    Except SendError TurnResult × DB :=
  let db2 := (save_message db1 uid cid character.name character_reply current_level).2
  let r := update_favorability db2 cid
  let db3 := r.2.2
  let current_message_count :=
    match get_favorability db3 cid with
    | some f => f.message_count
    | none => 0
  let ms := scanExact milestones current_message_count
  let ann :=
    match (historyQuery db3 cid).head? with
    | none => (false, 0)
    | some first_message =>
        scanExact anniversary_milestones (daysSince first_message.timestamp now)
  (Except.ok (TurnResult.ok
      ⟨character_reply, r.1, r.2.1, current_message_count,
       ms.1, ms.2, ann.1, ann.2⟩),
   db3)

/-- `send_message` (lines 225-386): resolve character and user (raising
before any write when missing), read the pre-update level, persist the
inbound message, assemble the bounded history for the gateway request, and
dispatch on the gateway outcome.  A gateway failure is absorbed by the
`except` block into the `success: False` dictionary, leaving the state as it
was right after the inbound save. -/
def send_message (db : DB) (uid cid : Nat) (user_message : String)
    (gw : GatewayOutcome) (now : Nat) : Except SendError TurnResult × DB :=
  match db.characters.find? (fun c => c.character_id == cid) with
  | none => (Except.error (SendError.characterNotFound cid), db)
  | some character =>
    match db.users.find? (fun u => u.user_id == uid) with
    | none => (Except.error (SendError.userNotFound uid), db)
    | some user =>
      let current_level := currentLevel db cid
      let db1 := (save_message db uid cid user.username user_message current_level).2
      let _api_history := get_conversation_history db1 cid (some MAX_HISTORY_MESSAGES)
      match gw with
      | Except.error e => (Except.ok (TurnResult.fail e), db1)
      | Except.ok character_reply =>
          completeTurn db1 uid cid character_reply current_level character now

/-- One manager operation applied to the database state. -/
inductive Step : DB → DB → Prop where
  | save_char (db : DB) (uid : Nat) (cdata : CharacterData) :
      Step db (save_character db uid cdata).2
  | update_fav (db : DB) (cid : Nat) :
      Step db (update_favorability db cid).2.2
  | send (db : DB) (uid cid : Nat) (msg : String) (gw : GatewayOutcome) (now : Nat) :
      Step db (send_message db uid cid msg gw now).2
  | delete (db : DB) (cid : Nat) :
      Step db (delete_character db cid).2

/-- States reachable from a fresh database through the manager operations. -/
inductive Reachable : DB → Prop where
  | init : Reachable DB.empty
  | step {db db' : DB} : Reachable db → Step db db' → Reachable db'

/-- Every stored tracker level is the pure level function of its count. -/
def LevelInvariant (db : DB) : Prop :=
  ∀ f ∈ db.favorabilities, f.current_level = levelFor f.message_count

/-- The message count of the tracker a read of character `cid` observes. -/
def trackerCount (db : DB) (cid : Nat) : Option Nat :=
  (get_favorability db cid).map (fun f => f.message_count)

/-- Tracker counts never decrease from one state to the next. -/
def CountMonotone (db db' : DB) : Prop :=
  ∀ cid c c', trackerCount db cid = some c → trackerCount db' cid = some c' →
    c ≤ c'

instance : IsTotal Message (fun a b : Message => a.timestamp ≤ b.timestamp) :=
  ⟨fun a b => Nat.le_total a.timestamp b.timestamp⟩

instance : IsTrans Message (fun a b : Message => a.timestamp ≤ b.timestamp) :=
  ⟨fun _ _ _ => Nat.le_trans⟩

/-! ### Concrete states used by witnesses and counterexamples -/

/-- One user, one character, a tracker at level 1 and count 19, no
messages. -/
def dbTrack : DB :=
  ⟨[⟨1, "alice"⟩], [⟨1, 1, "mei", "girl", none, none, none⟩], [],
   [⟨1, 1, 1, 19⟩], 2, 0⟩

/-- One user, one character, no tracker row, no messages. -/
def dbNoTrack : DB :=
  ⟨[⟨1, "alice"⟩], [⟨1, 1, "mei", "girl", none, none, none⟩], [], [], 2, 0⟩

/-- A lone message of character 1, no other rows. -/
def dbOneMsg : DB := ⟨[], [], [⟨1, 1, "u", "hello", 1, 0⟩], [], 1, 1⟩

/-- Character data used to build witness states. -/
def cdataW : CharacterData := ⟨"mei", "girl", none, none, none⟩

/-- One user, one character, a tracker at level 2 and count 49. -/
def dbMilestone : DB :=
  ⟨[⟨1, "alice"⟩], [⟨1, 1, "mei", "girl", none, none, none⟩], [],
   [⟨1, 1, 2, 49⟩], 2, 0⟩

/-- Three messages of character 1 in timestamp order. -/
def dbMany : DB :=
  ⟨[], [], [⟨1, 1, "u", "a", 1, 0⟩, ⟨1, 1, "u", "b", 1, 1⟩,
   ⟨1, 1, "u", "c", 1, 2⟩], [], 1, 3⟩

/-! ### Helper lemmas -/

theorem mem_updateFirst {α : Type} {p : α → Bool} {g : α → α} :
    ∀ {l : List α} {x : α}, x ∈ updateFirst p g l → x ∈ l ∨ ∃ y, y ∈ l ∧ x = g y := by
  intro l
  induction l with
  | nil => intro x hx; simp [updateFirst] at hx
  | cons a as ih =>
    intro x hx
    by_cases h : p a
    · simp only [updateFirst, if_pos h, List.mem_cons] at hx
      rcases hx with hx | hx
      · exact Or.inr ⟨a, List.mem_cons_self a as, hx⟩
      · exact Or.inl (List.mem_cons_of_mem a hx)
    · simp only [updateFirst, if_neg h, List.mem_cons] at hx
      rcases hx with hx | hx
      · exact Or.inl (hx ▸ List.mem_cons_self a as)
      · rcases ih hx with h' | ⟨y, hy, hxy⟩
        · exact Or.inl (List.mem_cons_of_mem a h')
        · exact Or.inr ⟨y, List.mem_cons_of_mem a hy, hxy⟩

theorem find?_cons_pos {α : Type} {p : α → Bool} {a : α} (l : List α)
    (h : p a = true) : (a :: l).find? p = some a := by
  simp [List.find?_cons, h]

theorem find?_cons_neg {α : Type} {p : α → Bool} {a : α} (l : List α)
    (h : p a = false) : (a :: l).find? p = l.find? p := by
  simp [List.find?_cons, h]

theorem find?_updateFirst_self {α : Type} {p : α → Bool} {g : α → α}
    (hg : ∀ x, p x = true → p (g x) = true) :
    ∀ l : List α, (updateFirst p g l).find? p = (l.find? p).map g := by
  intro l
  induction l with
  | nil => rfl
  | cons a as ih =>
    cases h : p a
    · simp only [updateFirst, h, Bool.false_eq_true, if_false,
        find?_cons_neg _ h, ih]
    · simp only [updateFirst, h, if_true, find?_cons_pos _ (hg a h),
        find?_cons_pos _ h, Option.map_some']

theorem find?_updateFirst_other {α : Type} {p q : α → Bool} {g : α → α}
    (hpq : ∀ x, p x = true → q x = false) (hgq : ∀ x, q (g x) = q x) :
    ∀ l : List α, (updateFirst p g l).find? q = l.find? q := by
  intro l
  induction l with
  | nil => rfl
  | cons a as ih =>
    cases h : p a
    · cases hq : q a
      · simp only [updateFirst, h, Bool.false_eq_true, if_false,
          find?_cons_neg _ hq, ih]
      · simp only [updateFirst, h, Bool.false_eq_true, if_false,
          find?_cons_pos _ hq]
    · have hq : q a = false := hpq a h
      have hq' : q (g a) = false := (hgq a).trans hq
      simp only [updateFirst, h, if_true, find?_cons_neg _ hq',
        find?_cons_neg _ hq]

theorem find?_filter_of_imp {α : Type} {q r : α → Bool}
    (h : ∀ x, q x = true → r x = true) :
    ∀ l : List α, (l.filter r).find? q = l.find? q := by
  intro l
  induction l with
  | nil => rfl
  | cons a as ih =>
    cases hr : r a
    · have hq : q a = false := by
        cases hqa : q a
        · rfl
        · exact absurd (h a hqa) (by simp [hr])
      simp only [List.filter_cons, hr, Bool.false_eq_true, if_false, ih,
        find?_cons_neg _ hq]
    · cases hq : q a
      · simp only [List.filter_cons, hr, if_true,
          find?_cons_neg _ hq, ih]
      · simp only [List.filter_cons, hr, if_true,
          find?_cons_pos _ hq]

theorem find?_filter_none {α : Type} {q r : α → Bool}
    (h : ∀ x, q x = true → r x = false) :
    ∀ l : List α, (l.filter r).find? q = none := by
  intro l
  induction l with
  | nil => rfl
  | cons a as ih =>
    cases hr : r a
    · simp only [List.filter_cons, hr, Bool.false_eq_true, if_false, ih]
    · have hq : q a = false := by
        cases hqa : q a
        · rfl
        · exact absurd (h a hqa) (by simp [hr])
      simp only [List.filter_cons, hr, if_true, find?_cons_neg _ hq, ih]

theorem scanExact_fst_iff (c : Nat) :
    ∀ ms : List Nat, ((scanExact ms c).1 = true ↔ c ∈ ms) := by
  intro ms
  induction ms with
  | nil => simp [scanExact]
  | cons m rest ih =>
    by_cases h : c = m
    · simp [scanExact, h]
    · have hb : (c == m) = false := by simp [h]
      simp [scanExact, hb, ih, h]

theorem scanExact_snd_of_fst (c : Nat) :
    ∀ ms : List Nat, (scanExact ms c).1 = true → (scanExact ms c).2 = c := by
  intro ms
  induction ms with
  | nil => simp [scanExact]
  | cons m rest ih =>
    by_cases h : c = m
    · simp [scanExact, h]
    · have hb : (c == m) = false := by simp [h]
      simpa [scanExact, hb] using ih

theorem update_favorability_of_none {db : DB} {cid : Nat}
    (h : get_favorability db cid = none) :
    update_favorability db cid = (1, false, db) := by
  simp [update_favorability, h]

theorem update_favorability_of_some {db : DB} {cid : Nat}
    {fav : FavorabilityTracking} (h : get_favorability db cid = some fav) :
    update_favorability db cid =
      (levelFor (fav.message_count + 1),
       decide (fav.current_level < levelFor (fav.message_count + 1)),
       { db with favorabilities := trackerBump cid fav db.favorabilities }) := by
  simp only [update_favorability, h]
  rfl

theorem update_favorability_messages (db : DB) (cid : Nat) :
    (update_favorability db cid).2.2.messages = db.messages := by
  cases h : get_favorability db cid
  · rw [update_favorability_of_none h]
  · rw [update_favorability_of_some h]

theorem update_favorability_characters (db : DB) (cid : Nat) :
    (update_favorability db cid).2.2.characters = db.characters := by
  cases h : get_favorability db cid
  · rw [update_favorability_of_none h]
  · rw [update_favorability_of_some h]

theorem update_favorability_clock (db : DB) (cid : Nat) :
    (update_favorability db cid).2.2.clock = db.clock := by
  cases h : get_favorability db cid
  · rw [update_favorability_of_none h]
  · rw [update_favorability_of_some h]

/-- Structural description of the success path: the returned payload fields
are exactly the quantities `completeTurn` computes, and the returned state
is the favorability update applied after the outbound save. -/
theorem completeTurn_spec (db1 : DB) (uid cid : Nat) (reply : String)
    (lvl : Nat) (c : Character) (now : Nat) :
    ∃ payload db',
      completeTurn db1 uid cid reply lvl c now =
        (Except.ok (TurnResult.ok payload), db') ∧
      db' = (update_favorability
        (save_message db1 uid cid c.name reply lvl).2 cid).2.2 ∧
      payload.reply = reply ∧
      payload.favorability_level = (update_favorability
        (save_message db1 uid cid c.name reply lvl).2 cid).1 ∧
      payload.level_increased = (update_favorability
        (save_message db1 uid cid c.name reply lvl).2 cid).2.1 ∧
      payload.message_count =
        (match get_favorability db' cid with
         | some f => f.message_count
         | none => 0) ∧
      (payload.milestone_reached, payload.milestone_number) =
        scanExact milestones payload.message_count ∧
      ((payload.anniversary_reached, payload.anniversary_days) =
        match (historyQuery db' cid).head? with
        | none => (false, 0)
        | some fm =>
            scanExact anniversary_milestones (daysSince fm.timestamp now)) :=
  ⟨_, _, rfl, rfl, rfl, rfl, rfl, rfl, rfl, rfl⟩

theorem historyQuery_sorted (db : DB) (cid : Nat) :
    List.Sorted (fun a b : Message => a.timestamp ≤ b.timestamp)
      (historyQuery db cid) :=
  List.sorted_insertionSort _ _

theorem historyQuery_length (db : DB) (cid : Nat) :
    (historyQuery db cid).length =
      (db.messages.filter (fun m => m.character_id == cid)).length :=
  (List.perm_insertionSort _ _).length_eq

theorem historyQuery_ne_nil {db : DB} {cid : Nat} {m : Message}
    (hm : m ∈ db.messages) (hcid : m.character_id = cid) :
    historyQuery db cid ≠ [] := by
  intro hnil
  have hmem : m ∈ db.messages.filter (fun x => x.character_id == cid) := by
    simp [List.mem_filter, hm, hcid]
  have hlen := historyQuery_length db cid
  rw [hnil] at hlen
  cases hfil : db.messages.filter (fun x => x.character_id == cid) with
  | nil => rw [hfil] at hmem; simp at hmem
  | cons a as => rw [hfil] at hlen; simp at hlen

theorem trackerCount_eq_of_favorabilities_eq {db db' : DB}
    (h : db'.favorabilities = db.favorabilities) (cid : Nat) :
    trackerCount db' cid = trackerCount db cid := by
  simp [trackerCount, get_favorability, h]

theorem countMonotone_of_favorabilities_eq {db db' : DB}
    (h : db'.favorabilities = db.favorabilities) : CountMonotone db db' := by
  intro cid c c' h1 h2
  rw [trackerCount_eq_of_favorabilities_eq h, h1] at h2
  exact le_of_eq (Option.some.inj h2)

theorem levelInvariant_of_favorabilities_eq {db db' : DB}
    (h : db'.favorabilities = db.favorabilities) (hinv : LevelInvariant db) :
    LevelInvariant db' := by
  intro f hf
  exact hinv f (h ▸ hf)

theorem save_character_favorabilities (db : DB) (uid : Nat)
    (cdata : CharacterData) :
    (save_character db uid cdata).2.favorabilities =
      db.favorabilities ++ [⟨uid, db.next_character_id, 1, 0⟩] := rfl

theorem levelInvariant_save_character (db : DB) (uid : Nat)
    (cdata : CharacterData) (h : LevelInvariant db) :
    LevelInvariant (save_character db uid cdata).2 := by
  intro f hf
  rw [save_character_favorabilities] at hf
  rcases List.mem_append.mp hf with hf | hf
  · exact h f hf
  · have hfe : f = ⟨uid, db.next_character_id, 1, 0⟩ := by simpa using hf
    rw [hfe]
    rfl

theorem countMonotone_save_character (db : DB) (uid : Nat)
    (cdata : CharacterData) :
    CountMonotone db (save_character db uid cdata).2 := by
  intro cid c c' h1 h2
  simp only [trackerCount, get_favorability, Option.map_eq_some'] at h1 h2
  obtain ⟨fav, hfav, hc⟩ := h1
  obtain ⟨fav', hfav', hc'⟩ := h2
  rw [save_character_favorabilities, List.find?_append, hfav] at hfav'
  have hff : fav = fav' := Option.some.inj hfav'
  rw [← hc, ← hc', hff]

theorem levelInvariant_update (db : DB) (cid : Nat) (h : LevelInvariant db) :
    LevelInvariant (update_favorability db cid).2.2 := by
  cases hf : get_favorability db cid with
  | none =>
    rw [update_favorability_of_none hf]
    exact h
  | some fav =>
    rw [update_favorability_of_some hf]
    intro f hmem
    have hmem' : f ∈ updateFirst (fun f => f.character_id == cid)
        (bumpRow fav) db.favorabilities := hmem
    rcases mem_updateFirst hmem' with hin | ⟨y, hy, hfy⟩
    · exact h f hin
    · rw [hfy]
      rfl

theorem countMonotone_update (db : DB) (cid : Nat) :
    CountMonotone db (update_favorability db cid).2.2 := by
  cases hf : get_favorability db cid with
  | none =>
    rw [update_favorability_of_none hf]
    exact countMonotone_of_favorabilities_eq rfl
  | some fav =>
    rw [update_favorability_of_some hf]
    intro cid' c c' h1 h2
    by_cases hcid : cid' = cid
    · subst hcid
      simp only [trackerCount, get_favorability, trackerBump] at h1 h2
      rw [@find?_updateFirst_self FavorabilityTracking
        (fun f => f.character_id == cid') (bumpRow fav)
        (fun x hx => hx) db.favorabilities] at h2
      rw [show db.favorabilities.find? (fun f => f.character_id == cid') =
        some fav from hf] at h1 h2
      simp [bumpRow] at h1 h2
      omega
    · have hpq : ∀ x : FavorabilityTracking,
          (x.character_id == cid) = true → (x.character_id == cid') = false := by
        intro x hx
        have hxc : x.character_id = cid := by simpa using hx
        simp [hxc]
        omega
      have hgq : ∀ x : FavorabilityTracking,
          ((bumpRow fav x).character_id == cid') =
          (x.character_id == cid') := fun x => rfl
      simp only [trackerCount, get_favorability, trackerBump] at h1 h2
      rw [find?_updateFirst_other hpq hgq db.favorabilities] at h2
      rw [h1] at h2
      exact le_of_eq (Option.some.inj h2)

theorem levelInvariant_send (db : DB) (uid cid : Nat) (msg : String)
    (gw : GatewayOutcome) (now : Nat) (h : LevelInvariant db) :
    LevelInvariant (send_message db uid cid msg gw now).2 := by
  cases hc : db.characters.find? (fun x => x.character_id == cid) with
  | none =>
    have heq : (send_message db uid cid msg gw now).2 = db := by
      simp [send_message, hc]
    rw [heq]
    exact h
  | some c =>
    cases hu : db.users.find? (fun x => x.user_id == uid) with
    | none =>
      have heq : (send_message db uid cid msg gw now).2 = db := by
        simp [send_message, hc, hu]
      rw [heq]
      exact h
    | some u =>
      cases gw with
      | error e =>
        have heq : (send_message db uid cid msg (Except.error e) now).2 =
            (save_message db uid cid u.username msg (currentLevel db cid)).2 := by
          simp [send_message, hc, hu]
        rw [heq]
        exact levelInvariant_of_favorabilities_eq rfl h
      | ok reply =>
        have heq : (send_message db uid cid msg (Except.ok reply) now).2 =
            (update_favorability (save_message (save_message db uid cid
              u.username msg (currentLevel db cid)).2 uid cid c.name reply
              (currentLevel db cid)).2 cid).2.2 := by
          simp [send_message, hc, hu, completeTurn]
        rw [heq]
        exact levelInvariant_update _ cid
          (levelInvariant_of_favorabilities_eq rfl h)

theorem countMonotone_send (db : DB) (uid cid : Nat) (msg : String)
    (gw : GatewayOutcome) (now : Nat) :
    CountMonotone db (send_message db uid cid msg gw now).2 := by
  cases hc : db.characters.find? (fun x => x.character_id == cid) with
  | none =>
    have heq : (send_message db uid cid msg gw now).2 = db := by
      simp [send_message, hc]
    rw [heq]
    exact countMonotone_of_favorabilities_eq rfl
  | some c =>
    cases hu : db.users.find? (fun x => x.user_id == uid) with
    | none =>
      have heq : (send_message db uid cid msg gw now).2 = db := by
        simp [send_message, hc, hu]
      rw [heq]
      exact countMonotone_of_favorabilities_eq rfl
    | some u =>
      cases gw with
      | error e =>
        have heq : (send_message db uid cid msg (Except.error e) now).2 =
            (save_message db uid cid u.username msg (currentLevel db cid)).2 := by
          simp [send_message, hc, hu]
        rw [heq]
        exact countMonotone_of_favorabilities_eq rfl
      | ok reply =>
        have heq : (send_message db uid cid msg (Except.ok reply) now).2 =
            (update_favorability (save_message (save_message db uid cid
              u.username msg (currentLevel db cid)).2 uid cid c.name reply
              (currentLevel db cid)).2 cid).2.2 := by
          simp [send_message, hc, hu, completeTurn]
        rw [heq]
        intro cid' c0 c' h1 h2
        exact countMonotone_update (save_message (save_message db uid cid
          u.username msg (currentLevel db cid)).2 uid cid c.name reply
          (currentLevel db cid)).2 cid cid' c0 c' h1 h2

theorem delete_character_of_none {db : DB} {cid : Nat}
    (h : db.characters.find? (fun c => c.character_id == cid) = none) :
    delete_character db cid = (false, db) := by
  simp [delete_character, h]

theorem delete_character_favorabilities {db : DB} {cid : Nat}
    {c0 : Character}
    (h : db.characters.find? (fun c => c.character_id == cid) = some c0) :
    (delete_character db cid).2.favorabilities =
      db.favorabilities.filter (fun f => !(f.character_id == cid)) := by
  simp [delete_character, h]

theorem levelInvariant_delete (db : DB) (cid : Nat) (h : LevelInvariant db) :
    LevelInvariant (delete_character db cid).2 := by
  cases hc : db.characters.find? (fun x => x.character_id == cid) with
  | none =>
    rw [delete_character_of_none hc]
    exact h
  | some c0 =>
    intro f hf
    rw [delete_character_favorabilities hc] at hf
    exact h f (List.mem_of_mem_filter hf)

theorem countMonotone_delete (db : DB) (cid : Nat) :
    CountMonotone db (delete_character db cid).2 := by
  cases hc : db.characters.find? (fun x => x.character_id == cid) with
  | none =>
    rw [delete_character_of_none hc]
    exact countMonotone_of_favorabilities_eq rfl
  | some c0 =>
    intro cid' c c' h1 h2
    simp only [trackerCount, get_favorability] at h1 h2
    rw [delete_character_favorabilities hc] at h2
    by_cases hcid : cid' = cid
    · subst hcid
      rw [find?_filter_none (fun x hx => by rw [hx]; rfl)
        db.favorabilities] at h2
      simp at h2
    · have himp : ∀ x : FavorabilityTracking,
          (x.character_id == cid') = true →
          (!(x.character_id == cid)) = true := by
        intro x hx
        have hxc : x.character_id = cid' := by simpa using hx
        simp [hxc]
        omega
      rw [find?_filter_of_imp himp db.favorabilities] at h2
      rw [h1] at h2
      exact le_of_eq (Option.some.inj h2)

/-! ### The claims -/

/-- Claim C2: the favorability level derived from a message count `c` is 1
exactly on `[0, 20)`, 2 exactly on `[20, 50)`, 3 exactly on `[50, ∞)`,
always lies in {1, 2, 3}, and is monotone non-decreasing in `c`. -/
theorem levelFor_thresholds :
    (∀ c : Nat,
      (levelFor c = 1 ↔ c < 20) ∧
      (levelFor c = 2 ↔ 20 ≤ c ∧ c < 50) ∧
      (levelFor c = 3 ↔ 50 ≤ c) ∧
      (levelFor c = 1 ∨ levelFor c = 2 ∨ levelFor c = 3)) ∧
    (∀ c d : Nat, c ≤ d → levelFor c ≤ levelFor d) := by
  constructor
  · intro c
    simp only [levelFor, LEVEL_2_THRESHOLD, LEVEL_3_THRESHOLD]
    refine ⟨?_, ?_, ?_, ?_⟩ <;> split_ifs <;> omega
  · intro c d hcd
    simp only [levelFor, LEVEL_2_THRESHOLD, LEVEL_3_THRESHOLD]
    split_ifs <;> omega

/-- Witness for C2 at the level-2 boundary. -/
theorem levelFor_thresholds_witness :
    (levelFor 19 = 1 ↔ 19 < 20) ∧ (19 ≤ 20 ∧ levelFor 19 ≤ levelFor 20) :=
  ⟨(levelFor_thresholds.1 19).1, by decide,
   levelFor_thresholds.2 19 20 (by decide)⟩

/-- Claim C3: when the tracker of a character exists, one call to
`update_favorability` increments its `message_count` by exactly 1, stores
the level derived from the incremented count, and returns the new level
together with a flag that is true exactly when the recomputed level strictly
exceeds the level stored before the increment. -/
theorem update_favorability_advances (db : DB) (cid : Nat)
    (fav : FavorabilityTracking) (h : get_favorability db cid = some fav) :
    get_favorability (update_favorability db cid).2.2 cid =
      some { fav with message_count := fav.message_count + 1,
                      current_level := levelFor (fav.message_count + 1) } ∧
    (update_favorability db cid).1 = levelFor (fav.message_count + 1) ∧
    ((update_favorability db cid).2.1 = true ↔
      fav.current_level < levelFor (fav.message_count + 1)) := by
  have hupd := update_favorability_of_some h
  refine ⟨?_, ?_, ?_⟩
  · rw [hupd]
    show (trackerBump cid fav db.favorabilities).find?
      (fun f => f.character_id == cid) = _
    have hfind := @find?_updateFirst_self FavorabilityTracking
      (fun f => f.character_id == cid) (bumpRow fav)
      (fun x hx => hx) db.favorabilities
    rw [trackerBump, hfind,
      show db.favorabilities.find? (fun f => f.character_id == cid) =
        some fav from h]
    rfl
  · rw [hupd]
  · rw [hupd]
    simp

/-- Witness for C3: a tracker at count 19, level 1 advances to count 20,
level 2, with the increase flag set. -/
theorem update_favorability_advances_witness :
    get_favorability (update_favorability dbTrack 1).2.2 1 =
      some { (⟨1, 1, 1, 19⟩ : FavorabilityTracking) with
              message_count := 19 + 1, current_level := levelFor (19 + 1) } ∧
    (update_favorability dbTrack 1).1 = levelFor (19 + 1) ∧
    ((update_favorability dbTrack 1).2.1 = true ↔ 1 < levelFor (19 + 1)) :=
  update_favorability_advances dbTrack 1 ⟨1, 1, 1, 19⟩ rfl

/-- Claim C7: a turn whose character id or user id does not resolve fails
with the corresponding not-found error and returns the database unchanged —
no message row is written and the tracker is untouched. -/
theorem missing_ids_no_write (db : DB) (uid cid : Nat) (msg : String)
    (gw : GatewayOutcome) (now : Nat) :
    (db.characters.find? (fun c => c.character_id == cid) = none →
      send_message db uid cid msg gw now =
        (Except.error (SendError.characterNotFound cid), db)) ∧
    (∀ c, db.characters.find? (fun c => c.character_id == cid) = some c →
      db.users.find? (fun u => u.user_id == uid) = none →
      send_message db uid cid msg gw now =
        (Except.error (SendError.userNotFound uid), db)) := by
  constructor
  · intro h
    simp [send_message, h]
  · intro c hc hu
    simp [send_message, hc, hu]

/-- Witness for C7: sending to an empty database fails with character 1 not
found and leaves the database untouched. -/
theorem missing_ids_no_write_witness :
    send_message DB.empty 1 1 "hi" (Except.ok "r") 0 =
      (Except.error (SendError.characterNotFound 1), DB.empty) :=
  (missing_ids_no_write DB.empty 1 1 "hi" (Except.ok "r") 0).1 rfl

/-- Claim C1: when the gateway call fails, the inbound message persisted
before the call remains persisted (the message table is the old one plus
exactly the inbound row), no outbound message is written, the tracker table
is unchanged, and the turn result reports failure carrying the error
description. -/
theorem gateway_failure_keeps_inbound (db : DB) (uid cid : Nat)
    (msg e : String) (now : Nat) (c : Character) (u : User)
    (hc : db.characters.find? (fun x => x.character_id == cid) = some c)
    (hu : db.users.find? (fun x => x.user_id == uid) = some u) :
    ∃ db' m,
      send_message db uid cid msg (Except.error e) now =
        (Except.ok (TurnResult.fail e), db') ∧
      db'.messages = db.messages ++ [m] ∧
      m.message_content = msg ∧ m.user_id = uid ∧ m.character_id = cid ∧
      m.speaker_name = u.username ∧
      db'.favorabilities = db.favorabilities := by
  refine ⟨{ db with
      messages := db.messages ++
        [⟨uid, cid, u.username, msg, currentLevel db cid, db.clock⟩],
      clock := db.clock + 1 },
    ⟨uid, cid, u.username, msg, currentLevel db cid, db.clock⟩,
    ?_, rfl, rfl, rfl, rfl, rfl, rfl⟩
  simp [send_message, hc, hu, save_message]

/-- Witness for C1 at a concrete one-character state. -/
theorem gateway_failure_keeps_inbound_witness :
    ∃ db' m,
      send_message dbTrack 1 1 "hello" (Except.error "boom") 0 =
        (Except.ok (TurnResult.fail "boom"), db') ∧
      db'.messages = dbTrack.messages ++ [m] ∧
      m.message_content = "hello" ∧ m.user_id = 1 ∧ m.character_id = 1 ∧
      m.speaker_name = (⟨1, "alice"⟩ : User).username ∧
      db'.favorabilities = dbTrack.favorabilities :=
  gateway_failure_keeps_inbound dbTrack 1 1 "hello" "boom" 0
    ⟨1, 1, "mei", "girl", none, none, none⟩ ⟨1, "alice"⟩ rfl rfl

/-- Claim C4: on a successful turn the milestone flag is set exactly when
the post-advance authoritative message count is one of 50, 100, 200, 500,
1000, and when it is set the milestone number is that count. -/
theorem milestone_exact (db : DB) (uid cid : Nat) (msg reply : String)
    (now : Nat) (c : Character) (u : User)
    (hc : db.characters.find? (fun x => x.character_id == cid) = some c)
    (hu : db.users.find? (fun x => x.user_id == uid) = some u) :
    ∃ payload db',
      send_message db uid cid msg (Except.ok reply) now =
        (Except.ok (TurnResult.ok payload), db') ∧
      payload.message_count =
        (match get_favorability db' cid with
         | some f => f.message_count
         | none => 0) ∧
      (payload.milestone_reached = true ↔
        payload.message_count ∈ milestones) ∧
      (payload.milestone_reached = true →
        payload.milestone_number = payload.message_count) := by
  have hsend : send_message db uid cid msg (Except.ok reply) now =
      completeTurn (save_message db uid cid u.username msg
        (currentLevel db cid)).2 uid cid reply (currentLevel db cid) c now := by
    simp [send_message, hc, hu]
  obtain ⟨payload, db', heq, hdb, hrep, hlev, hinc, hcount, hms, hann⟩ :=
    completeTurn_spec (save_message db uid cid u.username msg
      (currentLevel db cid)).2 uid cid reply (currentLevel db cid) c now
  refine ⟨payload, db', hsend.trans heq, hcount, ?_, ?_⟩
  · rw [show payload.milestone_reached =
      (scanExact milestones payload.message_count).1 from congrArg Prod.fst hms]
    exact scanExact_fst_iff payload.message_count milestones
  · intro hfired
    rw [show payload.milestone_number =
      (scanExact milestones payload.message_count).2 from congrArg Prod.snd hms]
    refine scanExact_snd_of_fst payload.message_count milestones ?_
    rw [show (scanExact milestones payload.message_count).1 =
      payload.milestone_reached from (congrArg Prod.fst hms).symm]
    exact hfired

/-- Witness for C4: a turn that drives the count from 49 to 50 fires the
milestone with number 50. -/
theorem milestone_exact_witness :
    ∃ payload db',
      send_message dbMilestone 1 1 "m" (Except.ok "r") 0 =
        (Except.ok (TurnResult.ok payload), db') ∧
      payload.message_count =
        (match get_favorability db' 1 with
         | some f => f.message_count
         | none => 0) ∧
      (payload.milestone_reached = true ↔
        payload.message_count ∈ milestones) ∧
      (payload.milestone_reached = true →
        payload.milestone_number = payload.message_count) :=
  milestone_exact dbMilestone 1 1 "m" "r" 0
    ⟨1, 1, "mei", "girl", none, none, none⟩ ⟨1, "alice"⟩ rfl rfl

/-- Claim C8: on a successful turn the anniversary flag is set exactly when
the whole-day delta between the character's first-ever message timestamp
and the current time is one of 7, 30, 100, 365 days, and when set the
anniversary day value is that delta. -/
theorem anniversary_exact (db : DB) (uid cid : Nat) (msg reply : String)
    (now : Nat) (c : Character) (u : User)
    (hc : db.characters.find? (fun x => x.character_id == cid) = some c)
    (hu : db.users.find? (fun x => x.user_id == uid) = some u) :
    ∃ payload db' fm,
      send_message db uid cid msg (Except.ok reply) now =
        (Except.ok (TurnResult.ok payload), db') ∧
      (historyQuery db' cid).head? = some fm ∧
      (payload.anniversary_reached = true ↔
        daysSince fm.timestamp now ∈ anniversary_milestones) ∧
      (payload.anniversary_reached = true →
        payload.anniversary_days = daysSince fm.timestamp now) := by
  have hsend : send_message db uid cid msg (Except.ok reply) now =
      completeTurn (save_message db uid cid u.username msg
        (currentLevel db cid)).2 uid cid reply (currentLevel db cid) c now := by
    simp [send_message, hc, hu]
  obtain ⟨payload, db', heq, hdb, hrep, hlev, hinc, hcount, hms, hann⟩ :=
    completeTurn_spec (save_message db uid cid u.username msg
      (currentLevel db cid)).2 uid cid reply (currentLevel db cid) c now
  have hmem : (⟨uid, cid, c.name, reply, currentLevel db cid,
      db.clock + 1⟩ : Message) ∈ db'.messages := by
    rw [hdb, update_favorability_messages]
    simp [save_message]
  have hne : historyQuery db' cid ≠ [] := historyQuery_ne_nil hmem rfl
  cases hh : (historyQuery db' cid).head? with
  | none =>
    exact absurd (List.head?_eq_none_iff.mp hh) hne
  | some fm =>
    rw [hh] at hann
    refine ⟨payload, db', fm, hsend.trans heq, hh, ?_, ?_⟩
    · rw [show payload.anniversary_reached =
        (scanExact anniversary_milestones (daysSince fm.timestamp now)).1 from
        congrArg Prod.fst hann]
      exact scanExact_fst_iff (daysSince fm.timestamp now) anniversary_milestones
    · intro hfired
      rw [show payload.anniversary_days =
        (scanExact anniversary_milestones (daysSince fm.timestamp now)).2 from
        congrArg Prod.snd hann]
      refine scanExact_snd_of_fst (daysSince fm.timestamp now)
        anniversary_milestones ?_
      rw [show (scanExact anniversary_milestones
        (daysSince fm.timestamp now)).1 = payload.anniversary_reached from
        (congrArg Prod.fst hann).symm]
      exact hfired

/-- Witness for C8: with the first message stamped at time 0 and the turn
at time 604800 seconds (7 whole days), the theorem applies. -/
theorem anniversary_exact_witness :
    ∃ payload db' fm,
      send_message dbTrack 1 1 "hello" (Except.ok "r") 604800 =
        (Except.ok (TurnResult.ok payload), db') ∧
      (historyQuery db' 1).head? = some fm ∧
      (payload.anniversary_reached = true ↔
        daysSince fm.timestamp 604800 ∈ anniversary_milestones) ∧
      (payload.anniversary_reached = true →
        payload.anniversary_days = daysSince fm.timestamp 604800) :=
  anniversary_exact dbTrack 1 1 "hello" "r" 604800
    ⟨1, 1, "mei", "girl", none, none, none⟩ ⟨1, "alice"⟩ rfl rfl

/-- Claim C5, amended to window limits of at least 1 (the source treats a
zero limit as no limit at all): with the chronologically sorted table of
the character's messages as reference, the call returns the whole table
when its length is at most the window, otherwise exactly the most recent
`w` entries in the same order, and the result is always sorted by
timestamp; the operation is a pure read. -/
theorem history_window (db : DB) (cid w : Nat) (hw : 1 ≤ w) :
    (get_conversation_history db cid (some w) =
      if (historyQuery db cid).length ≤ w then historyQuery db cid
      else (historyQuery db cid).drop ((historyQuery db cid).length - w)) ∧
    (get_conversation_history db cid (some w)).length =
      min (historyQuery db cid).length w ∧
    List.Sorted (fun a b : Message => a.timestamp ≤ b.timestamp)
      (get_conversation_history db cid (some w)) := by
  have hw0 : ¬ (w = 0) := by omega
  have hred : get_conversation_history db cid (some w) =
      if (historyQuery db cid).length > w then
        (historyQuery db cid).drop ((historyQuery db cid).length - w)
      else historyQuery db cid := by
    simp only [get_conversation_history]
    rw [if_neg hw0]
  refine ⟨?_, ?_, ?_⟩
  · rw [hred]
    by_cases h : (historyQuery db cid).length ≤ w
    · rw [if_neg (by omega), if_pos h]
    · rw [if_pos (by omega), if_neg h]
  · rw [hred]
    by_cases h : (historyQuery db cid).length ≤ w
    · rw [if_neg (by omega)]
      omega
    · rw [if_pos (by omega)]
      rw [List.length_drop]
      omega
  · rw [hred]
    by_cases h : (historyQuery db cid).length ≤ w
    · rw [if_neg (by omega)]
      exact historyQuery_sorted db cid
    · rw [if_pos (by omega)]
      exact List.Pairwise.sublist (List.drop_sublist _ _)
        (historyQuery_sorted db cid)

/-- Witness for C5: three messages with a window of 2 keep the last two in
order. -/
theorem history_window_witness :
    (get_conversation_history dbMany 1 (some 2) =
      if (historyQuery dbMany 1).length ≤ 2 then historyQuery dbMany 1
      else (historyQuery dbMany 1).drop ((historyQuery dbMany 1).length - 2)) ∧
    (get_conversation_history dbMany 1 (some 2)).length =
      min (historyQuery dbMany 1).length 2 ∧
    List.Sorted (fun a b : Message => a.timestamp ≤ b.timestamp)
      (get_conversation_history dbMany 1 (some 2)) :=
  history_window dbMany 1 2 (by decide)

/-- Counterexample to claim C5 as stated for window limit 0: the total
message count (1) exceeds the window (0), yet the result is not the most
recent zero messages — the code treats a zero limit as falsy and returns
the full list. -/
theorem history_window_cex :
    (historyQuery dbOneMsg 1).length > 0 ∧
    get_conversation_history dbOneMsg 1 (some 0) ≠ [] := by
  decide

/-- Claim C6, amended: no validation of the user message exists — an empty
message is not rejected; with resolvable ids the empty inbound row is
persisted exactly like any other message and the turn continues with the
gateway outcome. -/
theorem empty_message_not_validated (db : DB) (uid cid : Nat)
    (gw : GatewayOutcome) (now : Nat) (c : Character) (u : User)
    (hc : db.characters.find? (fun x => x.character_id == cid) = some c)
    (hu : db.users.find? (fun x => x.user_id == uid) = some u) :
    ∃ r db' rest,
      send_message db uid cid "" gw now = (Except.ok r, db') ∧
      db'.messages = db.messages ++
        ⟨uid, cid, u.username, "", currentLevel db cid, db.clock⟩ :: rest := by
  cases gw with
  | error e =>
    refine ⟨TurnResult.fail e, { db with
        messages := db.messages ++
          [⟨uid, cid, u.username, "", currentLevel db cid, db.clock⟩],
        clock := db.clock + 1 }, [], ?_, rfl⟩
    simp [send_message, hc, hu, save_message]
  | ok reply =>
    have hsend : send_message db uid cid "" (Except.ok reply) now =
        completeTurn (save_message db uid cid u.username ""
          (currentLevel db cid)).2 uid cid reply (currentLevel db cid) c now := by
      simp [send_message, hc, hu]
    obtain ⟨payload, db', heq, hdb, -, -, -, -, -, -⟩ :=
      completeTurn_spec (save_message db uid cid u.username ""
        (currentLevel db cid)).2 uid cid reply (currentLevel db cid) c now
    refine ⟨TurnResult.ok payload, db',
      [⟨uid, cid, c.name, reply, currentLevel db cid, db.clock + 1⟩],
      hsend.trans heq, ?_⟩
    rw [hdb, update_favorability_messages]
    simp [save_message]

/-- Witness for C6 (amended) at a concrete state with a failing gateway. -/
theorem empty_message_not_validated_witness :
    ∃ r db' rest,
      send_message dbTrack 1 1 "" (Except.error "down") 0 = (Except.ok r, db') ∧
      db'.messages = dbTrack.messages ++
        ⟨1, 1, (⟨1, "alice"⟩ : User).username, "",
          currentLevel dbTrack 1, dbTrack.clock⟩ :: rest :=
  empty_message_not_validated dbTrack 1 1 (Except.error "down") 0
    ⟨1, 1, "mei", "girl", none, none, none⟩ ⟨1, "alice"⟩ rfl rfl

/-- Counterexample to claim C6 as stated: an empty user message is not
rejected before any write — the turn persists the empty inbound row plus
the reply, and the tracker advances. -/
theorem empty_message_cex :
    (send_message dbTrack 1 1 "" (Except.ok "hi") 0).2.messages.map
        (fun m => m.message_content) = ["", "hi"] ∧
    (send_message dbTrack 1 1 "" (Except.ok "hi") 0).2.favorabilities ≠
      dbTrack.favorabilities := by
  decide

/-- The success path when the character has no tracker row: favorability
update is a no-op and the reported authoritative count is 0. -/
theorem completeTurn_no_tracker (db1 : DB) (uid cid : Nat) (reply : String)
    (lvl : Nat) (c : Character) (now : Nat)
    (hf : get_favorability (save_message db1 uid cid c.name reply lvl).2 cid =
      none) :
    ∃ payload,
      completeTurn db1 uid cid reply lvl c now =
        (Except.ok (TurnResult.ok payload),
         (save_message db1 uid cid c.name reply lvl).2) ∧
      payload.message_count = 0 := by
  obtain ⟨payload, db', heq, hdb, -, -, -, hcount, -, -⟩ :=
    completeTurn_spec db1 uid cid reply lvl c now
  have hdb2 : db' = (save_message db1 uid cid c.name reply lvl).2 := by
    rw [hdb, update_favorability_of_none hf]
  refine ⟨payload, ?_, ?_⟩
  · rw [heq, hdb2]
  · rw [hcount, hdb2, hf]

/-- Claim C10: for a character with no tracker row, `update_favorability`
returns `(1, false)` and leaves the state untouched, and a fully successful
turn still persists both the inbound and outbound rows at level 1, leaves
the tracker table unchanged (still no tracker), and reports an
authoritative message count of 0. -/
theorem no_tracker_turn (db : DB) (uid cid : Nat) (msg reply : String)
    (now : Nat) (c : Character) (u : User)
    (hc : db.characters.find? (fun x => x.character_id == cid) = some c)
    (hu : db.users.find? (fun x => x.user_id == uid) = some u)
    (hf : get_favorability db cid = none) :
    update_favorability db cid = (1, false, db) ∧
    ∃ payload db',
      send_message db uid cid msg (Except.ok reply) now =
        (Except.ok (TurnResult.ok payload), db') ∧
      db'.messages = db.messages ++
        [⟨uid, cid, u.username, msg, 1, db.clock⟩,
         ⟨uid, cid, c.name, reply, 1, db.clock + 1⟩] ∧
      db'.favorabilities = db.favorabilities ∧
      get_favorability db' cid = none ∧
      payload.message_count = 0 := by
  have hlvl : currentLevel db cid = 1 := by simp [currentLevel, hf]
  have hsend : send_message db uid cid msg (Except.ok reply) now =
      completeTurn (save_message db uid cid u.username msg
        (currentLevel db cid)).2 uid cid reply (currentLevel db cid) c now := by
    simp [send_message, hc, hu]
  obtain ⟨payload, hmain, hcount⟩ :=
    completeTurn_no_tracker (save_message db uid cid u.username msg
      (currentLevel db cid)).2 uid cid reply (currentLevel db cid) c now hf
  refine ⟨update_favorability_of_none hf, payload,
    (save_message (save_message db uid cid u.username msg
      (currentLevel db cid)).2 uid cid c.name reply (currentLevel db cid)).2,
    hsend.trans hmain, ?_, rfl, hf, hcount⟩
  simp [save_message, hlvl]

/-- Witness for C10 at a concrete user/character state with no tracker. -/
theorem no_tracker_turn_witness :
    update_favorability dbNoTrack 1 = (1, false, dbNoTrack) ∧
    ∃ payload db',
      send_message dbNoTrack 1 1 "hi" (Except.ok "yo") 0 =
        (Except.ok (TurnResult.ok payload), db') ∧
      db'.messages = dbNoTrack.messages ++
        [⟨1, 1, (⟨1, "alice"⟩ : User).username, "hi", 1, dbNoTrack.clock⟩,
         ⟨1, 1, (⟨1, 1, "mei", "girl", none, none, none⟩ : Character).name,
          "yo", 1, dbNoTrack.clock + 1⟩] ∧
      db'.favorabilities = dbNoTrack.favorabilities ∧
      get_favorability db' 1 = none ∧
      payload.message_count = 0 :=
  no_tracker_turn dbNoTrack 1 1 "hi" "yo" 0
    ⟨1, 1, "mei", "girl", none, none, none⟩ ⟨1, "alice"⟩ rfl rfl rfl

/-- Claim C9: in every state reachable through the manager operations
(save_character, update_favorability, send_message, delete_character) every
tracker's stored level equals the pure level function of its stored count,
and tracker counts are monotone non-decreasing across every operation. -/
theorem tracker_invariants :
    (∀ db : DB, Reachable db → LevelInvariant db) ∧
    (∀ db db' : DB, Step db db' → CountMonotone db db') := by
  have hmono : ∀ db db' : DB, Step db db' → CountMonotone db db' := by
    intro db db' hstep
    cases hstep with
    | save_char uid cdata => exact countMonotone_save_character db uid cdata
    | update_fav cid => exact countMonotone_update db cid
    | send uid cid msg gw now => exact countMonotone_send db uid cid msg gw now
    | delete cid => exact countMonotone_delete db cid
  refine ⟨?_, hmono⟩
  intro db h
  induction h with
  | init =>
    intro f hf
    simp [DB.empty] at hf
  | step hr hs ih =>
    cases hs with
    | save_char uid cdata =>
        exact levelInvariant_save_character _ uid cdata ih
    | update_fav cid => exact levelInvariant_update _ cid ih
    | send uid cid msg gw now =>
        exact levelInvariant_send _ uid cid msg gw now ih
    | delete cid => exact levelInvariant_delete _ cid ih

/-- Witness for C9: the invariant at the state reached by one character
save from the fresh database, and count monotonicity across one
favorability update from that state. -/
theorem tracker_invariants_witness :
    LevelInvariant (save_character DB.empty 1 cdataW).2 ∧
    CountMonotone (save_character DB.empty 1 cdataW).2
      (update_favorability (save_character DB.empty 1 cdataW).2 1).2.2 :=
  ⟨tracker_invariants.1 _ (Reachable.step Reachable.init
      (Step.save_char DB.empty 1 cdataW)),
   tracker_invariants.2 _ _ (Step.update_fav _ 1)⟩

end DatingBot
